import Mathlib

/-!
Verification of `timestamp_to_premiere.py` (OBS timestamp → Premiere Pro XML
converter).  The Python source is shallowly embedded below: Python `float`
arithmetic on frame rates and millisecond offsets is modelled exactly by `ℚ`
(decimal literals such as `23.976` are taken at their exact decimal value),
Python `int(...)` applied to a non-integral number is truncation toward zero,
JSON values are modelled by the inductive `JVal`, the produced XML document by
the inductive `XmlNode`, and the filesystem / wall clock collaborators of the
orchestrator are passed in as explicit oracle parameters.
-/

/-- Truncation of a rational toward zero: the value of Python `int(q)` for a
number `q` (`int(29.97) = 29`, `int(-0.5) = 0`). -/
def truncQ (q : ℚ) : ℤ := q.num.tdiv q.den

/-- Embedding of `ms_to_frames(milliseconds, fps)` (source lines 113–115):
`int((milliseconds / 1000.0) * fps)`. -/
def ms_to_frames (milliseconds : ℤ) (fps : ℚ) : ℤ :=
  truncQ ((milliseconds : ℚ) / 1000 * fps)

/-- JSON values, as produced by `json.loads` on one input line.  Numbers are
exact rationals (JSON integers have denominator 1). -/
inductive JVal where
  | jstr (s : String)
  | jnum (q : ℚ)
  | jbool (b : Bool)
  | jnull
  | jarr (xs : List JVal)
  | jobj (fields : List (String × JVal))

/-- Lookup of `d[k]` / `d.get(k)` in a Python dict built by `json.loads`:
with duplicate keys the last occurrence wins. -/
def jget (fs : List (String × JVal)) (k : String) : Option JVal :=
  fs.reverse.lookup k

/-- Python `int(v)` as applied to a JSON value: truncates numbers toward
zero, parses integer strings, maps booleans to 0/1, and raises (`none`) on
`null`, arrays and objects (`TypeError`). -/
def pyInt : JVal → Option ℤ
  | .jnum q => some (truncQ q)
  | .jstr s => s.toInt?
  | .jbool b => some (if b then 1 else 0)
  | _ => none

/-- One marker entry as built by `parse_timestamps` (source lines 88–93):
`timestamp_ms` is coerced with `int(...)`, the other three fields are stored
unconverted (any JSON value). -/
structure Marker where
  timestamp_ms : ℤ
  comment : JVal
  name : JVal
  color : JVal

/-- One stripped input line, after `json.loads`.  `bad` covers both invalid
JSON (`JSONDecodeError`: warned and skipped) and valid JSON whose value is
not an object — tracing lines 77–102, every non-dict value either fails the
key tests or raises a caught `TypeError`, so such a line is always skipped
too. -/
inductive RawLine where
  | blank
  | bad
  | obj (fields : List (String × JVal))

/-- Loop body of `parse_timestamps` (source lines 68–102): threads the
`metadata` variable (a later metadata record overwrites an earlier one) and
appends markers in input order. -/
def parseLoop : List RawLine → JVal → JVal × List Marker
  | [], md => (md, [])
  | .blank :: rest, md => parseLoop rest md
  | .bad :: rest, md => parseLoop rest md
  | .obj fs :: rest, md =>
    match jget fs "metadata" with
    | some m => parseLoop rest m
    | none =>
      match jget fs "timestamp_ms" with
      | none => parseLoop rest md
      | some v =>
        match pyInt v with
        | none => parseLoop rest md
        | some n =>
          let t : Marker :=
            ⟨n, (jget fs "comment").getD (.jstr ""),
              (jget fs "name").getD (.jstr ""),
              (jget fs "color").getD (.jstr "blue")⟩
          let p := parseLoop rest md
          (p.1, t :: p.2)

/-- Embedding of `parse_timestamps` on a successfully opened file, with the
initial `metadata = {}` of line 64.  (`FileNotFoundError` → `(None, None)` is
modelled at the orchestrator level.) -/
def parse_timestamps (lines : List RawLine) : JVal × List Marker :=
  parseLoop lines (.jobj [])

/-- The value of the metadata record carried by a line, if any. -/
def metaVal : RawLine → Option JVal
  | .obj fs => jget fs "metadata"
  | _ => none

/-- An XML element tree as built with `xml.etree.ElementTree`; `.text = s` is
modelled as a single `text` child. -/
inductive XmlNode where
  | text (s : String)
  | elem (tag : String) (attrs : List (String × String)) (children : List XmlNode)

/-- Element with attributes left empty. -/
def el (tag : String) (children : List XmlNode) : XmlNode := .elem tag [] children

/-- Element whose only content is text. -/
def elT (tag s : String) : XmlNode := .elem tag [] [.text s]

/-- One `rate` block as emitted at source lines 220–222, 236–238, 263–265 and
334–336: a `timebase` and an `ntsc` child. -/
def rateNode (timebase : ℤ) (ntsc : Bool) : XmlNode :=
  el "rate" [elT "timebase" (toString timebase), elT "ntsc" (if ntsc then "TRUE" else "FALSE")]

/-- Python `str.lower()` (ASCII range, which covers this program's inputs),
written on the character list so that it evaluates. -/
def pyLower (s : String) : String := String.mk (s.data.map Char.toLower)

/-- Python `str.endswith(suffix)`, written on character lists. -/
def pyEndsWith (s suffix : String) : Bool :=
  decide (suffix.data = s.data.drop (s.data.length - suffix.data.length))

/-- The `COLOR_MAP` constant (source lines 17–26). -/
def COLOR_MAP : List (String × String) :=
  [("blue", "4294741314"), ("cyan", "4294940928"), ("green", "4278255360"),
   ("yellow", "4278255615"), ("red", "4294901760"), ("magenta", "4294902015"),
   ("purple", "4286578816"), ("orange", "4294924800")]

/-- Embedding of `get_color_code` (source lines 117–119):
`COLOR_MAP.get(color_name.lower(), COLOR_MAP["blue"])`.  Python calls
`.lower()` on the argument, so a non-string raises an uncaught
`AttributeError`, modelled as `Except.error`. -/
def get_color_code : JVal → Except String String
  | .jstr s => .ok ((COLOR_MAP.lookup (pyLower s)).getD "4294741314")
  | _ => .error "AttributeError"

/-- Text content assigned to a marker `comment`/`name` element.  The claims
only exercise string values; serialization of a non-string `.text` (which
raises in Python only later, inside `ET.tostring`) is outside the model. -/
def jvalText : JVal → String
  | .jstr s => s
  | _ => ""

/-- One `marker` element (source lines 305–314 and 342–351). -/
def markerNode (fps : ℚ) (m : Marker) : Except String XmlNode := do
  let code ← get_color_code m.color
  pure (el "marker"
    [elT "comment" (jvalText m.comment), elT "name" (jvalText m.name),
     elT "in" (toString (ms_to_frames m.timestamp_ms fps)), elT "out" "-1",
     elT "pproColor" code])

/-- The marker loop: one element per timestamp, in input order, stopping at
the first uncaught exception. -/
def markerNodes (fps : ℚ) : List Marker → Except String (List XmlNode)
  | [] => .ok []
  | m :: rest => do
    let x ← markerNode fps m
    let xs ← markerNodes fps rest
    pure (x :: xs)

/-- Python `max(t['timestamp_ms'] for t in timestamps)` (source line 201);
only used on a non-empty list. -/
def maxTimestamp : List Marker → ℤ
  | [] => 0
  | t :: rest => rest.foldl (fun a m => max a m.timestamp_ms) t.timestamp_ms

/-- The list `[23.976, 29.97, 59.94]` of source line 193, at exact decimal
value. -/
def NTSC_RATES : List ℚ := [23976/1000, 2997/100, 5994/100]

/-- Embedding of `ntsc = fps in [23.976, 29.97, 59.94]` (source line 193). -/
def ntscFlag (fps : ℚ) : Bool := decide (fps ∈ NTSC_RATES)

/-- Embedding of `timebase = int(fps) if not ntsc else int(fps * 1.001)`
(source line 194). -/
def pyTimebase (fps : ℚ) : ℤ :=
  if ntscFlag fps then truncQ (fps * (1001/1000)) else truncQ fps

/-- Python `if not sequence_name:` at line 197: `None` and the empty string
both trigger the clock-derived default; `now` stands for
`datetime.now().strftime(...)`. -/
def seqNameOf (sequence_name : Option String) (now : String) : String :=
  match sequence_name with
  | some s => if s.data.isEmpty then "OBS Markers (" ++ now ++ ")" else s
  | none => "OBS Markers (" ++ now ++ ")"

/-- The `generatoritem` element (source lines 258–314): the invisible color
matte that carries the per-clip markers. -/
def genItemNode (timebase : ℤ) (ntsc : Bool) (duration : ℤ)
    (genMarkers : List XmlNode) : XmlNode :=
  .elem "generatoritem" [("id", "clipitem-1")]
     ([elT "name" "OBS Marker Holder",
       elT "enabled" "TRUE",
       elT "duration" (toString duration),
       rateNode timebase ntsc,
       elT "start" "0",
       elT "end" (toString duration),
       elT "in" "0",
       elT "out" (toString duration),
       elT "alphatype" "none",
       el "effect"
        [elT "name" "Color",
         elT "effectid" "Color",
         elT "effectcategory" "Matte",
         elT "effecttype" "generator",
         elT "mediatype" "video",
         .elem "parameter" [("authoringApp", "PremierePro")]
          [elT "parameterid" "fillcolor",
           elT "name" "Color",
           el "value"
            [elT "alpha" "0", elT "red" "0",
             elT "green" "0", elT "blue" "0"]]],
       el "filter"
        [el "effect"
          [elT "name" "Opacity",
           elT "effectid" "opacity",
           elT "effectcategory" "motion",
           elT "effecttype" "motion",
           elT "mediatype" "video",
           .elem "parameter" [("authoringApp", "PremierePro")]
            [elT "parameterid" "opacity",
             elT "name" "opacity",
             elT "value" "0"]]]] ++ genMarkers)

/-- The element tree assembled by `create_premiere_xml` (source lines
204–351), transcribed element by element in build order; the computed
time base, NTSC flag, duration, sequence name, dimensions and the two
marker-element lists are parameters. -/
def xmemlTree (timebase : ℤ) (ntsc : Bool) (duration : ℤ) (seqName : String)
    (width height : ℤ) (genMarkers seqMarkers : List XmlNode) : XmlNode :=
  .elem "xmeml" [("version", "4")]
    [.elem "sequence" [("id", "sequence"), ("explodedTracks", "true")]
      ([elT "uuid" "obs-timestamp-markers-sequence",
        elT "duration" (toString duration),
        rateNode timebase ntsc,
        elT "name" (seqName),
        el "media"
          [el "video"
            [el "format"
              [el "samplecharacteristics"
                [rateNode timebase ntsc,
                 el "codec" [elT "name" "Apple ProRes 422"],
                 elT "width" (toString width),
                 elT "height" (toString height),
                 elT "anamorphic" "FALSE",
                 elT "pixelaspectratio" "square",
                 elT "fielddominance" "none",
                 elT "colordepth" "24"]],
             el "track"
              [elT "enabled" "TRUE",
               elT "locked" "FALSE",
               genItemNode timebase ntsc duration genMarkers]],
           el "audio"
            [elT "numOutputChannels" "2",
             el "format"
              [el "samplecharacteristics"
                [elT "depth" "16", elT "samplerate" "48000"]],
             el "track"
              [elT "enabled" "TRUE", elT "locked" "FALSE",
               elT "outputchannelindex" "1"],
             el "track"
              [elT "enabled" "TRUE", elT "locked" "FALSE",
               elT "outputchannelindex" "2"]]],
        el "timecode"
          [rateNode timebase ntsc,
           elT "string" "00:00:00:00",
           elT "frame" "0",
           elT "displayformat" "NDF"]] ++ seqMarkers)]

/-- The document built by `create_premiere_xml` on a non-empty marker list
(source lines 192–351): computes the rate fields and duration, runs the two
marker loops, and assembles `xmemlTree`. -/
def premiereDoc (timestamps : List Marker) (fps : ℚ) (sequence_name : Option String)
    (now : String) (width height : ℤ) : Except String XmlNode := do
  let ntsc := ntscFlag fps
  let timebase := pyTimebase fps
  let duration := ms_to_frames (maxTimestamp timestamps + 60000) fps
  let genMarkers ← markerNodes fps timestamps
  let seqMarkers ← markerNodes fps timestamps
  pure (xmemlTree timebase ntsc duration (seqNameOf sequence_name now)
    width height genMarkers seqMarkers)

/-- Embedding of `create_premiere_xml` (source lines 176–369): returns
`(False, nothing written)` on an empty marker list, otherwise builds the
document and writes it (returning `True`); an uncaught exception while
building is `Except.error`.  The filesystem write of lines 363–369 is
modelled as succeeding; `some doc` is the content written to
`output_path`. -/
def create_premiere_xml (timestamps : List Marker) (output_path : String) (fps : ℚ)
    (sequence_name : Option String) (now : String) (width height : ℤ) :
    Except String (Bool × Option XmlNode) :=
  if timestamps.isEmpty then .ok (false, none)
  else (premiereDoc timestamps fps sequence_name now width height).map
    (fun d => (true, some d))

mutual

/-- All descendant elements carrying the given tag, in document order (the
node itself included). -/
def findElems (tag : String) : XmlNode → List XmlNode
  | .text _ => []
  | .elem t a c =>
    (if t = tag then [XmlNode.elem t a c] else []) ++ findElemsList tag c

/-- findElems over a list of sibling nodes. -/
def findElemsList (tag : String) : List XmlNode → List XmlNode
  | [] => []
  | x :: xs => findElems tag x ++ findElemsList tag xs

end

/-- The text of a node, when it is an element with the given tag holding a
single text child. -/
def textChild (tag : String) : XmlNode → Option String
  | .elem t _ [.text s] => if t = tag then some s else none
  | _ => none

/-- The texts of the direct children of a node that carry the given tag. -/
def childTexts (tag : String) : XmlNode → List String
  | .text _ => []
  | .elem _ _ c => c.filterMap (textChild tag)

/-- The shape of every element produced by `markerNode`. -/
def markerShape (x : XmlNode) : Prop :=
  ∃ c n i cd, x = el "marker"
    [elT "comment" c, elT "name" n, elT "in" i, elT "out" "-1",
     elT "pproColor" cd]

/-- Python truthiness of a JSON value. -/
def pyTruthy : JVal → Bool
  | .jnull => false
  | .jbool b => b
  | .jnum q => !(q == 0)
  | .jstr s => !s.data.isEmpty
  | .jarr xs => !xs.isEmpty
  | .jobj fs => !fs.isEmpty

/-- Effective frame rate selected by `main` (source lines 394–401): a truthy
metadata dict carrying both `fps_num` and `fps_den` overrides the `--fps`
argument with `fps_num / fps_den`.  `none` marks paths on which the Python
process raises (division by zero, non-numeric operands, membership test on a
truthy non-dict). -/
def mainFps (md : JVal) (argsFps : ℚ) : Option ℚ :=
  if pyTruthy md then
    match md with
    | .jobj fs =>
      match jget fs "fps_num", jget fs "fps_den" with
      | some (.jnum a), some (.jnum b) => if b = 0 then none else some (a / b)
      | some _, some _ => none
      | _, _ => some argsFps
    | _ => none
  else some argsFps

/-- The video extension whitelist of source line 136. -/
def VIDEO_EXTS : List String := [".mp4", ".mkv", ".flv", ".mov", ".avi", ".ts"]

/-- The `(filepath, mtime)` list built at source lines 146–153: directory
entries with a whitelisted extension (case-insensitive), joined onto the
directory. -/
def videoFiles (recording_dir : String) (entries : List (String × ℚ)) :
    List (String × ℚ) :=
  (entries.filter fun e => VIDEO_EXTS.any fun ext => pyEndsWith (pyLower e.1) ext).map
    fun e => (recording_dir ++ "/" ++ e.1, e.2)

/-- Embedding of `find_latest_video_file` (source lines 121–174).
`dirEntries` is the filesystem oracle: `none` when the directory does not
exist or `os.listdir` raises, otherwise the entries with their modification
times.  `metadata_time` is the `datetime.strptime(...).timestamp()` result
(`none` when parsing failed).  The sort of line 162 is Python's stable sort
with `reverse=True`. -/
def find_latest_video_file (recording_dir : String)
    (dirEntries : Option (List (String × ℚ))) (metadata_time : Option ℚ) :
    Option String :=
  if recording_dir.data.isEmpty then none
  else
    match dirEntries with
    | none => none
    | some entries =>
      let video_files := videoFiles recording_dir entries
      if video_files.isEmpty then none
      else
        let sorted := video_files.mergeSort fun a b => decide (b.2 ≤ a.2)
        match metadata_time with
        | some t =>
          match sorted.find? (fun f => decide (|f.2 - t| < 300)) with
          | some f => some f.1
          | none => sorted.head?.map Prod.fst
        | none => sorted.head?.map Prod.fst

/-- Index of the last occurrence of a character. -/
def lastIndexOf (c : Char) (l : List Char) : Option ℕ :=
  match l.reverse.findIdx? (· = c) with
  | none => none
  | some i => some (l.length - 1 - i)

/-- Python `os.path.basename` for POSIX paths: the part after the last
slash. -/
def basename (p : String) : String :=
  String.mk ((p.data.reverse.takeWhile (fun c => c ≠ '/')).reverse)

/-- The stem part of Python `os.path.splitext(p)`: the extension is cut at
the last dot, unless that dot lies before the last slash or only dots stand
between the slash and it (so `.bashrc` keeps its name). -/
def splitextStem (p : String) : String :=
  let cs := p.toList
  match lastIndexOf '.' cs with
  | none => p
  | some d =>
    let s : ℕ := match lastIndexOf '/' cs with | none => 0 | some i => i + 1
    if s ≤ d ∧ ((cs.drop s).take (d - s)).any (fun ch => ch ≠ '.') then
      String.mk (cs.take d)
    else p

/-- Output path selected by `main` (source lines 403–433).  When metadata is
a truthy dict carrying `recording_path` and `timestamp` keys and a video file
is resolved, the auto-generated name overrides even an explicit `output`
argument; otherwise the explicit argument is used, and the input-stem
fallback only when no explicit argument was given.  `none` marks paths on
which the Python process raises (a truthy non-string `recording_path`, or a
truthy non-dict metadata value). -/
def determineOutput (argsOutput : Option String) (md : JVal)
    (dirEntries : String → Option (List (String × ℚ)))
    (parseTime : String → Option ℚ) (inputPath : String) : Option String :=
  let fallback := splitextStem inputPath ++ "_markers.xml"
  if pyTruthy md then
    match md with
    | .jobj fs =>
      match jget fs "recording_path", jget fs "timestamp" with
      | some (.jstr dir), some tval =>
        let mt := match tval with | .jstr time => parseTime time | _ => none
        match find_latest_video_file dir (dirEntries dir) mt with
        | some video =>
          some (dir ++ "/" ++ splitextStem (basename video) ++ "_markers.xml")
        | none => some (argsOutput.getD fallback)
      | some rp, some _ =>
        if pyTruthy rp then none else some (argsOutput.getD fallback)
      | _, _ => some (argsOutput.getD fallback)
    | _ => none
  else some (argsOutput.getD fallback)

/-- Embedding of `main` (source lines 371–468) from the parse result on:
returns `(exit code, emitter invoked)`; `none` marks runs on which the
Python process raises.  `parsed = none` is the `(None, None)` result of
`parse_timestamps` on an unreadable file. -/
def mainRun (parsed : Option (JVal × List Marker)) (argsOutput : Option String)
    (argsFps : ℚ) (argsSeqName : Option String) (argsW argsH : ℤ)
    (inputPath : String) (dirEntries : String → Option (List (String × ℚ)))
    (parseTime : String → Option ℚ) (now : String) : Option (ℤ × Bool) :=
  match parsed with
  | none => some (1, false)
  | some (md, ts) =>
    if ts.isEmpty then some (1, false)
    else
      match mainFps md argsFps with
      | none => none
      | some fps =>
        match determineOutput argsOutput md dirEntries parseTime inputPath with
        | none => none
        | some out =>
          match create_premiere_xml ts out fps argsSeqName now argsW argsH with
          | .error _ => none
          | .ok (true, _) => some (0, true)
          | .ok (false, _) => some (1, true)

/-- A line whose `timestamp_ms` value (if any, and if it coerces) coerces to
a non-negative integer. -/
def lineOK : RawLine → Bool
  | .obj fs =>
    match jget fs "timestamp_ms" with
    | some v =>
      match pyInt v with
      | some n => decide (0 ≤ n)
      | none => true
    | none => true
  | _ => true

theorem truncQ_eq_ite (q : ℚ) : truncQ q = if 0 ≤ q then ⌊q⌋ else ⌈q⌉ := by
  unfold truncQ
  by_cases h : 0 ≤ q
  · rw [if_pos h, Rat.floor_def]
    exact Int.tdiv_eq_ediv (Rat.num_nonneg.mpr h) (Int.ofNat_nonneg q.den)
  · rw [if_neg h]
    have hq : q < 0 := lt_of_not_le h
    have hnum : q.num = -(-q).num := by simp
    have hden : q.den = (-q).den := by simp
    rw [hnum, hden, Int.neg_tdiv]
    have h1 : (-q).num.tdiv (-q).den = ⌊-q⌋ := by
      rw [Rat.floor_def]
      exact Int.tdiv_eq_ediv (Rat.num_nonneg.mpr (by linarith)) (Int.ofNat_nonneg _)
    rw [h1, Int.floor_neg, neg_neg]

theorem truncQ_mono {a b : ℚ} (h : a ≤ b) : truncQ a ≤ truncQ b := by
  rw [truncQ_eq_ite, truncQ_eq_ite]
  by_cases ha : 0 ≤ a
  · rw [if_pos ha, if_pos (le_trans ha h)]
    exact Int.floor_le_floor h
  · rw [if_neg ha]
    by_cases hb : 0 ≤ b
    · rw [if_pos hb]
      calc ⌈a⌉ ≤ 0 := Int.ceil_le.mpr (by exact_mod_cast le_of_lt (lt_of_not_le ha))
        _ ≤ ⌊b⌋ := Int.floor_nonneg.mpr hb
    · rw [if_neg hb]
      exact Int.ceil_le_ceil h

theorem ms_to_frames_mono {a b : ℤ} {fps : ℚ} (hfps : 0 < fps) (h : a ≤ b) :
    ms_to_frames a fps ≤ ms_to_frames b fps := by
  unfold ms_to_frames
  apply truncQ_mono
  have : (a : ℚ) ≤ (b : ℚ) := by exact_mod_cast h
  have h1000 : (0 : ℚ) < 1000 := by norm_num
  exact mul_le_mul_of_nonneg_right ((div_le_div_iff_of_pos_right h1000).mpr this)
    (le_of_lt hfps)

/-- C1: for non-negative `ms` and positive `fps`, `ms_to_frames` computes the
floor of `ms / 1000 * fps` (truncation and floor agree on non-negative
values); in particular `ms_to_frames 1500 60 = 90` and
`ms_to_frames 999 30 = 29` (truncating `29.97`, not rounding). -/
theorem C1_ms_to_frames_floor (ms : ℕ) (fps : ℚ) (hfps : 0 < fps) :
    ms_to_frames ms fps = ⌊(ms : ℚ) / 1000 * fps⌋ ∧
    ms_to_frames 1500 60 = 90 ∧ ms_to_frames 999 30 = 29 := by
  refine ⟨?_, by norm_num [ms_to_frames, truncQ], ?_⟩
  · unfold ms_to_frames
    have h0 : (0 : ℚ) ≤ ((ms : ℤ) : ℚ) / 1000 * fps :=
      mul_nonneg (by positivity) (le_of_lt hfps)
    rw [truncQ_eq_ite, if_pos h0]
    push_cast
    rfl
  · norm_num [ms_to_frames, truncQ]
    decide

theorem parseLoop_fst (lines : List RawLine) (md : JVal) :
    (parseLoop lines md).1 = ((lines.filterMap metaVal).getLast?).getD md := by
  induction lines generalizing md with
  | nil => rfl
  | cons l rest ih =>
    cases l with
    | blank =>
      simp only [parseLoop, List.filterMap_cons, metaVal]
      exact ih md
    | bad =>
      simp only [parseLoop, List.filterMap_cons, metaVal]
      exact ih md
    | obj fs =>
      cases h : jget fs "metadata" with
      | some m =>
        simp only [parseLoop, h, List.filterMap_cons, metaVal]
        rw [ih m]
        cases hr : (rest.filterMap metaVal) with
        | nil => simp
        | cons x xs =>
          obtain ⟨y, hy⟩ : ∃ y, (x :: xs).getLast? = some y :=
            Option.isSome_iff_exists.mp (by simp)
          simp [hy]
      | none =>
        cases h2 : jget fs "timestamp_ms" with
        | none =>
          simp only [parseLoop, h, h2, List.filterMap_cons, metaVal]
          exact ih md
        | some v =>
          cases h3 : pyInt v with
          | none =>
            simp only [parseLoop, h, h2, h3, List.filterMap_cons, metaVal]
            exact ih md
          | some n =>
            simp only [parseLoop, h, h2, h3, List.filterMap_cons, metaVal]
            exact ih md

theorem parseLoop_markers (lines : List RawLine) (md : JVal) :
    ∀ m ∈ (parseLoop lines md).2, ∃ fs v, RawLine.obj fs ∈ lines ∧
      jget fs "timestamp_ms" = some v ∧ pyInt v = some m.timestamp_ms := by
  induction lines generalizing md with
  | nil => intro m hm; simp [parseLoop] at hm
  | cons l rest ih =>
    cases l with
    | blank =>
      intro m hm
      simp only [parseLoop] at hm
      obtain ⟨fs, v, h1, h2, h3⟩ := ih md m hm
      exact ⟨fs, v, by simp [h1], h2, h3⟩
    | bad =>
      intro m hm
      simp only [parseLoop] at hm
      obtain ⟨fs, v, h1, h2, h3⟩ := ih md m hm
      exact ⟨fs, v, by simp [h1], h2, h3⟩
    | obj fs =>
      intro m hm
      cases h : jget fs "metadata" with
      | some md2 =>
        simp only [parseLoop, h] at hm
        obtain ⟨fs2, v, h1, h2, h3⟩ := ih md2 m hm
        exact ⟨fs2, v, by simp [h1], h2, h3⟩
      | none =>
        cases h2 : jget fs "timestamp_ms" with
        | none =>
          simp only [parseLoop, h, h2] at hm
          obtain ⟨fs2, v2, ha, hb, hc⟩ := ih md m hm
          exact ⟨fs2, v2, by simp [ha], hb, hc⟩
        | some v =>
          cases h3 : pyInt v with
          | none =>
            simp only [parseLoop, h, h2, h3] at hm
            obtain ⟨fs2, v2, ha, hb, hc⟩ := ih md m hm
            exact ⟨fs2, v2, by simp [ha], hb, hc⟩
          | some n =>
            simp only [parseLoop, h, h2, h3, List.mem_cons] at hm
            rcases hm with hm | hm
            · exact ⟨fs, v, by simp, h2, by rw [h3, hm]⟩
            · obtain ⟨fs2, v2, ha, hb, hc⟩ := ih md m hm
              exact ⟨fs2, v2, by simp [ha], hb, hc⟩

/-- C5 (amended): the parser's effective metadata is the value of the LAST
record carrying a `metadata` key (line 78 overwrites the variable on every
such record), defaulting to the initial empty dict; the first record is not
the effective one when several appear. -/
theorem C5_last_metadata_effective (lines : List RawLine) :
    (parse_timestamps lines).1 =
      ((lines.filterMap metaVal).getLast?).getD (.jobj []) :=
  parseLoop_fst lines (.jobj [])

/-- C5 counterexample: with two metadata records, the parser returns the
second one, not the first — so the first metadata record is not the
effective one. -/
theorem C5_counterexample :
    (parse_timestamps [.obj [("metadata", .jstr "A")],
      .obj [("metadata", .jstr "B")]]).1 = .jstr "B" ∧
    JVal.jstr "B" ≠ JVal.jstr "A" :=
  ⟨rfl, by simp⟩

/-- C9 (amended): every parsed marker offset is the `int(...)` coercion of an
input `timestamp_ms` value (lines 82–95 perform no sign check), so all
markers are non-negative whenever every line's coercible `timestamp_ms`
value is non-negative. -/
theorem C9_nonneg_when_inputs_nonneg (lines : List RawLine)
    (h : lines.all lineOK = true) :
    ∀ m ∈ (parse_timestamps lines).2, 0 ≤ m.timestamp_ms := by
  intro m hm
  obtain ⟨fs, v, h1, h2, h3⟩ := parseLoop_markers lines (.jobj []) m hm
  have hOK := List.all_eq_true.mp h _ h1
  simp only [lineOK, h2, h3] at hOK
  exact of_decide_eq_true hOK

/-- Witness for C9: a concrete one-line file with a non-negative offset. -/
theorem C9_witness :
    ([RawLine.obj [("timestamp_ms", .jnum 1500)]].all lineOK = true) ∧
    (∀ m ∈ (parse_timestamps [RawLine.obj [("timestamp_ms", .jnum 1500)]]).2,
      0 ≤ m.timestamp_ms) :=
  ⟨rfl, C9_nonneg_when_inputs_nonneg _ rfl⟩

/-- C9 counterexample: the input line `{"timestamp_ms": -5}` is accepted and
yields a marker with a negative offset, refuting the unconditional claim. -/
theorem C9_counterexample :
    ((parse_timestamps [RawLine.obj [("timestamp_ms", .jnum (-5))]]).2.map
      Marker.timestamp_ms = [-5]) ∧ ((-5 : ℤ) < 0) :=
  ⟨rfl, by norm_num⟩

/-- C10: the parser stores a marker's `color` field unconverted (here the
number `5`), and `create_premiere_xml` on such a marker raises the
`AttributeError` of `get_color_code`'s `.lower()` call instead of falling
back to blue or returning `False`. -/
theorem C10_color_crash :
    (parse_timestamps [RawLine.obj [("timestamp_ms", .jnum 100),
        ("color", .jnum 5)]]).2 = [⟨100, .jstr "", .jstr "", .jnum 5⟩] ∧
    get_color_code (.jnum 5) = .error "AttributeError" ∧
    (∀ out now, create_premiere_xml [⟨100, .jstr "", .jstr "", .jnum 5⟩] out 60
      none now 1920 1080 = .error "AttributeError") :=
  ⟨rfl, rfl, fun _ _ => rfl⟩

theorem bind_ok_eq {α β : Type} (a : α) (f : α → Except String β) :
    (Except.ok a >>= f) = f a := rfl

theorem bind_error_eq {α β : Type} (e : String) (f : α → Except String β) :
    ((Except.error e : Except String α) >>= f) = Except.error e := rfl

theorem map_ok_eq {α β : Type} (f : α → β) (a : α) :
    (Except.ok a : Except String α).map f = Except.ok (f a) := rfl

theorem markerNode_ok_shape {fps : ℚ} {m : Marker} {x : XmlNode}
    (h : markerNode fps m = .ok x) : markerShape x := by
  cases hcc : get_color_code m.color with
  | error e => simp [markerNode, hcc, bind_error_eq] at h
  | ok cd =>
    simp only [markerNode, hcc, bind_ok_eq, pure] at h
    exact ⟨jvalText m.comment, jvalText m.name,
      toString (ms_to_frames m.timestamp_ms fps), cd, by
        cases h; rfl⟩

theorem markerNodes_ok_shape {fps : ℚ} : ∀ {ts : List Marker} {l : List XmlNode},
    markerNodes fps ts = .ok l → ∀ x ∈ l, markerShape x := by
  intro ts
  induction ts with
  | nil =>
    intro l h x hx
    simp only [markerNodes] at h
    cases h
    simp at hx
  | cons m rest ih =>
    intro l h x hx
    cases hc : markerNode fps m with
    | error e => simp [markerNodes, hc, bind_error_eq] at h
    | ok y =>
      cases hr : markerNodes fps rest with
      | error e => simp [markerNodes, hc, hr, bind_ok_eq, bind_error_eq] at h
      | ok ys =>
        simp only [markerNodes, hc, hr, bind_ok_eq, pure] at h
        cases h
        rcases List.mem_cons.mp hx with hx | hx
        · subst hx; exact markerNode_ok_shape hc
        · exact ih hr x hx

theorem findElemsList_markerShape (tag : String) (h1 : tag ≠ "marker")
    (h2 : tag ≠ "comment") (h3 : tag ≠ "name") (h4 : tag ≠ "in")
    (h5 : tag ≠ "out") (h6 : tag ≠ "pproColor") :
    ∀ {l : List XmlNode}, (∀ x ∈ l, markerShape x) → findElemsList tag l = [] := by
  intro l hl
  induction l with
  | nil => rfl
  | cons x xs ih =>
    obtain ⟨c, n, i, cd, hx⟩ := hl x (by simp)
    subst hx
    simp [findElems, findElemsList, el, elT, Ne.symm h1, Ne.symm h2, Ne.symm h3,
      Ne.symm h4, Ne.symm h5, Ne.symm h6, ih (fun y hy => hl y (by simp [hy]))]

theorem textChild_markerShape (tag : String) {x : XmlNode} (h : markerShape x) :
    textChild tag x = none := by
  obtain ⟨c, n, i, cd, hx⟩ := h
  subst hx
  rfl

theorem filterMap_textChild_markerShape (tag : String) {l : List XmlNode}
    (hl : ∀ x ∈ l, markerShape x) : l.filterMap (textChild tag) = [] := by
  induction l with
  | nil => rfl
  | cons x xs ih =>
    rw [List.filterMap_cons, textChild_markerShape tag (hl x (by simp))]
    exact ih (fun y hy => hl y (by simp [hy]))

theorem findElems_rate_xmemlTree (tb : ℤ) (ntsc : Bool) (d : ℤ) (sn : String)
    (w hh : ℤ) {g s : List XmlNode} (hg : ∀ x ∈ g, markerShape x)
    (hs : ∀ x ∈ s, markerShape x) :
    findElems "rate" (xmemlTree tb ntsc d sn w hh g s) =
      List.replicate 4 (rateNode tb ntsc) := by
  have hgz := findElemsList_markerShape "rate" (by decide) (by decide) (by decide)
    (by decide) (by decide) (by decide) hg
  have hsz := findElemsList_markerShape "rate" (by decide) (by decide) (by decide)
    (by decide) (by decide) (by decide) hs
  simp [xmemlTree, genItemNode, findElems, findElemsList, el, elT, rateNode,
    hgz, hsz, List.replicate]

theorem findElems_duration_xmemlTree (tb : ℤ) (ntsc : Bool) (d : ℤ) (sn : String)
    (w hh : ℤ) {g s : List XmlNode} (hg : ∀ x ∈ g, markerShape x)
    (hs : ∀ x ∈ s, markerShape x) :
    findElems "duration" (xmemlTree tb ntsc d sn w hh g s) =
      [elT "duration" (toString d), elT "duration" (toString d)] := by
  have hgz := findElemsList_markerShape "duration" (by decide) (by decide) (by decide)
    (by decide) (by decide) (by decide) hg
  have hsz := findElemsList_markerShape "duration" (by decide) (by decide) (by decide)
    (by decide) (by decide) (by decide) hs
  simp [xmemlTree, genItemNode, findElems, findElemsList, el, elT, rateNode,
    hgz, hsz]

theorem findElems_genItem_xmemlTree (tb : ℤ) (ntsc : Bool) (d : ℤ) (sn : String)
    (w hh : ℤ) {g s : List XmlNode} (hg : ∀ x ∈ g, markerShape x)
    (hs : ∀ x ∈ s, markerShape x) :
    findElems "generatoritem" (xmemlTree tb ntsc d sn w hh g s) =
      [genItemNode tb ntsc d g] := by
  have hgz := findElemsList_markerShape "generatoritem" (by decide) (by decide)
    (by decide) (by decide) (by decide) (by decide) hg
  have hsz := findElemsList_markerShape "generatoritem" (by decide) (by decide)
    (by decide) (by decide) (by decide) (by decide) hs
  simp only [xmemlTree, genItemNode, findElems, findElemsList, el, elT, rateNode]
  simp [findElems, findElemsList, hgz, hsz, genItemNode, el, elT, rateNode]

theorem childTexts_genItem (tb : ℤ) (ntsc : Bool) (d : ℤ) {g : List XmlNode}
    (hg : ∀ x ∈ g, markerShape x) :
    childTexts "duration" (genItemNode tb ntsc d g) = [toString d] ∧
    childTexts "end" (genItemNode tb ntsc d g) = [toString d] ∧
    childTexts "out" (genItemNode tb ntsc d g) = [toString d] ∧
    childTexts "in" (genItemNode tb ntsc d g) = ["0"] := by
  refine ⟨?_, ?_, ?_, ?_⟩ <;>
    simp [genItemNode, childTexts, textChild, el, elT, rateNode,
      filterMap_textChild_markerShape _ hg]

theorem premiereDoc_ok {ts : List Marker} {fps : ℚ} {sn : Option String}
    {now : String} {w hh : ℤ} {l : List XmlNode}
    (hl : markerNodes fps ts = .ok l) :
    premiereDoc ts fps sn now w hh =
      .ok (xmemlTree (pyTimebase fps) (ntscFlag fps)
        (ms_to_frames (maxTimestamp ts + 60000) fps) (seqNameOf sn now)
        w hh l l) := by
  simp only [premiereDoc, hl, bind_ok_eq]
  rfl

theorem create_premiere_xml_ok {ts : List Marker} {out : String} {fps : ℚ}
    {sn : Option String} {now : String} {w hh : ℤ} {l : List XmlNode}
    (hne : ts ≠ []) (hl : markerNodes fps ts = .ok l) :
    create_premiere_xml ts out fps sn now w hh =
      .ok (true, some (xmemlTree (pyTimebase fps) (ntscFlag fps)
        (ms_to_frames (maxTimestamp ts + 60000) fps) (seqNameOf sn now)
        w hh l l)) := by
  have hne' : ts.isEmpty = false := by
    cases ts with
    | nil => exact absurd rfl hne
    | cons a b => rfl
  rw [create_premiere_xml, hne']
  simp only [Bool.false_eq_true, if_false, premiereDoc_ok hl, map_ok_eq]

theorem foldlMax_le_init (l : List Marker) : ∀ a : ℤ,
    a ≤ l.foldl (fun b m => max b m.timestamp_ms) a := by
  induction l with
  | nil => intro a; simp
  | cons x xs ih =>
    intro a
    calc a ≤ max a x.timestamp_ms := le_max_left _ _
      _ ≤ _ := by simpa using ih (max a x.timestamp_ms)

theorem mem_le_foldlMax (l : List Marker) : ∀ (a : ℤ), ∀ m ∈ l,
    m.timestamp_ms ≤ l.foldl (fun b m2 => max b m2.timestamp_ms) a := by
  induction l with
  | nil => intro a m hm; simp at hm
  | cons x xs ih =>
    intro a m hm
    rcases List.mem_cons.mp hm with h | h
    · subst h
      calc m.timestamp_ms ≤ max a m.timestamp_ms := le_max_right _ _
        _ ≤ _ := by simpa using foldlMax_le_init xs (max a m.timestamp_ms)
    · simpa using ih (max a x.timestamp_ms) m h

theorem le_maxTimestamp {ts : List Marker} : ∀ m ∈ ts,
    m.timestamp_ms ≤ maxTimestamp ts := by
  cases ts with
  | nil => simp
  | cons t rest =>
    intro m hm
    rcases List.mem_cons.mp hm with h | h
    · subst h
      simpa [maxTimestamp] using foldlMax_le_init rest m.timestamp_ms
    · simpa [maxTimestamp] using mem_le_foldlMax rest t.timestamp_ms m h

/-- C2: for every non-empty marker list (whose colors all convert, witnessed
by `markerNodes`), `create_premiere_xml` succeeds and emits as sequence
duration `ms_to_frames (max offset + 60000) fps`, repeats that value as the
generator clip item's `duration`, `end` and `out`, yields
`ms_to_frames 60000 fps` when the single maximal offset is `0`, and (for
positive fps) every marker's in-frame is at most the declared duration. -/
theorem C2_duration_and_padding (ts : List Marker) (out : String) (fps : ℚ)
    (sn : Option String) (now : String) (w hh : ℤ) (l : List XmlNode)
    (hne : ts ≠ []) (hl : markerNodes fps ts = .ok l) (hfps : 0 < fps) :
    ∃ doc, create_premiere_xml ts out fps sn now w hh = .ok (true, some doc) ∧
      findElems "duration" doc =
        [elT "duration" (toString (ms_to_frames (maxTimestamp ts + 60000) fps)),
         elT "duration" (toString (ms_to_frames (maxTimestamp ts + 60000) fps))] ∧
      (findElems "generatoritem" doc).map (childTexts "duration") =
        [[toString (ms_to_frames (maxTimestamp ts + 60000) fps)]] ∧
      (findElems "generatoritem" doc).map (childTexts "end") =
        [[toString (ms_to_frames (maxTimestamp ts + 60000) fps)]] ∧
      (findElems "generatoritem" doc).map (childTexts "out") =
        [[toString (ms_to_frames (maxTimestamp ts + 60000) fps)]] ∧
      (maxTimestamp ts = 0 →
        ms_to_frames (maxTimestamp ts + 60000) fps = ms_to_frames 60000 fps) ∧
      (∀ m ∈ ts, ms_to_frames m.timestamp_ms fps ≤
        ms_to_frames (maxTimestamp ts + 60000) fps) := by
  have hshape := markerNodes_ok_shape hl
  obtain ⟨hd, he, ho, hi⟩ :=
    childTexts_genItem (pyTimebase fps) (ntscFlag fps)
      (ms_to_frames (maxTimestamp ts + 60000) fps) hshape
  refine ⟨_, create_premiere_xml_ok hne hl, ?_, ?_, ?_, ?_, ?_, ?_⟩
  · exact findElems_duration_xmemlTree _ _ _ _ _ _ hshape hshape
  · rw [findElems_genItem_xmemlTree _ _ _ _ _ _ hshape hshape]
    simp [hd]
  · rw [findElems_genItem_xmemlTree _ _ _ _ _ _ hshape hshape]
    simp [he]
  · rw [findElems_genItem_xmemlTree _ _ _ _ _ _ hshape hshape]
    simp [ho]
  · intro h0; rw [h0]; norm_num
  · intro m hm
    exact ms_to_frames_mono hfps
      (le_trans (le_maxTimestamp m hm) (by linarith))


theorem get_color_code_blue : get_color_code (.jstr "blue") = .ok "4294741314" := by
  have hp : pyLower "blue" = "blue" := by decide
  simp [get_color_code, COLOR_MAP, hp]

theorem ms_to_frames_zero (fps : ℚ) : ms_to_frames 0 fps = 0 := by
  norm_num [ms_to_frames, truncQ]

theorem markerNodes_blue (fps : ℚ) :
    markerNodes fps [⟨0, .jstr "", .jstr "", .jstr "blue"⟩] =
      .ok [el "marker" [elT "comment" "", elT "name" "", elT "in" "0",
        elT "out" "-1", elT "pproColor" "4294741314"]] := by
  simp [markerNodes, markerNode, get_color_code_blue, ms_to_frames_zero,
    bind_ok_eq, Except.pure, jvalText]
  rfl

/-- Witness for C2 at a concrete single marker with offset 0 and fps 60. -/
theorem C2_witness :
    ([(⟨0, .jstr "", .jstr "", .jstr "blue"⟩ : Marker)] ≠ []) ∧
    markerNodes 60 [⟨0, .jstr "", .jstr "", .jstr "blue"⟩] =
      .ok [el "marker" [elT "comment" "", elT "name" "", elT "in" "0",
        elT "out" "-1", elT "pproColor" "4294741314"]] ∧
    ((0 : ℚ) < 60) ∧
    (∃ doc, create_premiere_xml [⟨0, .jstr "", .jstr "", .jstr "blue"⟩] "o.xml" 60
        none "t" 1920 1080 = .ok (true, some doc) ∧
      findElems "duration" doc =
        [elT "duration" (toString (ms_to_frames
          (maxTimestamp [⟨0, .jstr "", .jstr "", .jstr "blue"⟩] + 60000) 60)),
         elT "duration" (toString (ms_to_frames
          (maxTimestamp [⟨0, .jstr "", .jstr "", .jstr "blue"⟩] + 60000) 60))] ∧
      (findElems "generatoritem" doc).map (childTexts "duration") =
        [[toString (ms_to_frames
          (maxTimestamp [⟨0, .jstr "", .jstr "", .jstr "blue"⟩] + 60000) 60)]] ∧
      (findElems "generatoritem" doc).map (childTexts "end") =
        [[toString (ms_to_frames
          (maxTimestamp [⟨0, .jstr "", .jstr "", .jstr "blue"⟩] + 60000) 60)]] ∧
      (findElems "generatoritem" doc).map (childTexts "out") =
        [[toString (ms_to_frames
          (maxTimestamp [⟨0, .jstr "", .jstr "", .jstr "blue"⟩] + 60000) 60)]] ∧
      (maxTimestamp [⟨0, .jstr "", .jstr "", .jstr "blue"⟩] = 0 →
        ms_to_frames (maxTimestamp [⟨0, .jstr "", .jstr "", .jstr "blue"⟩] + 60000) 60 =
          ms_to_frames 60000 60) ∧
      (∀ m ∈ [(⟨0, .jstr "", .jstr "", .jstr "blue"⟩ : Marker)],
        ms_to_frames m.timestamp_ms 60 ≤
          ms_to_frames (maxTimestamp [⟨0, .jstr "", .jstr "", .jstr "blue"⟩] + 60000) 60)) :=
  ⟨by simp, markerNodes_blue 60, by norm_num,
    C2_duration_and_padding _ "o.xml" 60 none "t" 1920 1080 _
      (by simp) (markerNodes_blue 60) (by norm_num)⟩

/-- Witness for C1 at `ms = 999`, `fps = 30`. -/
theorem C1_witness :
    ((0 : ℚ) < 30) ∧
    (ms_to_frames (999 : ℕ) 30 = ⌊((999 : ℕ) : ℚ) / 1000 * 30⌋ ∧
     ms_to_frames 1500 60 = 90 ∧ ms_to_frames 999 30 = 29) :=
  ⟨by norm_num, C1_ms_to_frames_floor 999 30 (by norm_num)⟩

/-- C6: a parse result with zero markers makes `main` exit with status 1
without ever invoking the emitter, and `create_premiere_xml` on an empty
marker list returns `False` and writes nothing. -/
theorem C6_zero_markers (md : JVal) (argsOutput : Option String) (argsFps : ℚ)
    (argsSeqName : Option String) (argsW argsH : ℤ) (inputPath : String)
    (dirEntries : String → Option (List (String × ℚ)))
    (parseTime : String → Option ℚ) (now : String) (out : String) (fps : ℚ)
    (sn : Option String) (w hh : ℤ) :
    mainRun (some (md, [])) argsOutput argsFps argsSeqName argsW argsH
      inputPath dirEntries parseTime now = some (1, false) ∧
    create_premiere_xml [] out fps sn now w hh = .ok (false, none) :=
  ⟨rfl, rfl⟩

/-- C4 (amended): for every fps, all four rate elements of the emitted
document carry the same timebase/ntsc pair; the NTSC flag is set exactly on
23.976, 29.97 and 59.94, where the timebase is `⌊fps * 1.001⌋`; otherwise the
timebase is Python's `int(fps)` — truncation toward zero, which equals
`⌊fps⌋` for non-negative fps (but not for negative fps). -/
theorem C4_rate_repetition (fps : ℚ) (ts : List Marker) (sn : Option String)
    (now : String) (w hh : ℤ) (l : List XmlNode)
    (hl : markerNodes fps ts = .ok l) :
    (∃ doc, premiereDoc ts fps sn now w hh = .ok doc ∧
      findElems "rate" doc =
        List.replicate 4 (rateNode (pyTimebase fps) (ntscFlag fps))) ∧
    (ntscFlag fps = true ↔
      (fps = 23976/1000 ∨ fps = 2997/100 ∨ fps = 5994/100)) ∧
    (ntscFlag fps = true → pyTimebase fps = ⌊fps * (1001/1000)⌋) ∧
    (ntscFlag fps = false → 0 ≤ fps → pyTimebase fps = ⌊fps⌋) := by
  have hiff : ntscFlag fps = true ↔
      (fps = 23976/1000 ∨ fps = 2997/100 ∨ fps = 5994/100) := by
    simp [ntscFlag, NTSC_RATES]
  refine ⟨⟨_, premiereDoc_ok hl, findElems_rate_xmemlTree _ _ _ _ _ _
      (markerNodes_ok_shape hl) (markerNodes_ok_shape hl)⟩, hiff, ?_, ?_⟩
  · intro h
    have hpos : (0 : ℚ) ≤ fps * (1001/1000) := by
      rcases hiff.mp h with h3 | h3 | h3 <;> rw [h3] <;> norm_num
    rw [pyTimebase, if_pos h, truncQ_eq_ite, if_pos hpos]
  · intro h hf
    rw [pyTimebase, if_neg (by simp [h]), truncQ_eq_ite, if_pos hf]

/-- Witness for C4 at fps 60 and a concrete single marker. -/
theorem C4_witness :
    markerNodes 60 [⟨0, .jstr "", .jstr "", .jstr "blue"⟩] =
      .ok [el "marker" [elT "comment" "", elT "name" "", elT "in" "0",
        elT "out" "-1", elT "pproColor" "4294741314"]] ∧
    ((∃ doc, premiereDoc [⟨0, .jstr "", .jstr "", .jstr "blue"⟩] 60 none "t"
        1920 1080 = .ok doc ∧
      findElems "rate" doc =
        List.replicate 4 (rateNode (pyTimebase 60) (ntscFlag 60))) ∧
    (ntscFlag 60 = true ↔
      ((60 : ℚ) = 23976/1000 ∨ (60 : ℚ) = 2997/100 ∨ (60 : ℚ) = 5994/100)) ∧
    (ntscFlag 60 = true → pyTimebase 60 = ⌊(60 : ℚ) * (1001/1000)⌋) ∧
    (ntscFlag 60 = false → (0 : ℚ) ≤ 60 → pyTimebase 60 = ⌊(60 : ℚ)⌋)) :=
  ⟨markerNodes_blue 60,
    C4_rate_repetition 60 [⟨0, .jstr "", .jstr "", .jstr "blue"⟩] none "t"
      1920 1080 _ (markerNodes_blue 60)⟩

/-- C4 counterexample: at `fps = -1/2` (reachable via `--fps -0.5`) the
emitted rate elements carry timebase `int(-0.5) = 0`, not
`⌊-0.5⌋ = -1` as the claim's "otherwise timebase floor(fps)" arm states. -/
theorem C4_counterexample :
    ntscFlag (-1/2) = false ∧ pyTimebase (-1/2) = 0 ∧ ⌊(-1/2 : ℚ)⌋ = -1 ∧
    ((0 : ℤ) ≠ -1) ∧
    (∃ doc, premiereDoc [⟨0, .jstr "", .jstr "", .jstr "blue"⟩] (-1/2) none "t"
        1920 1080 = .ok doc ∧
      findElems "rate" doc = List.replicate 4 (rateNode 0 false)) := by
  have hnt : ntscFlag (-1/2) = false := by
    simp [ntscFlag, NTSC_RATES]
    norm_num
  have hpt : pyTimebase (-1/2) = 0 := by
    rw [pyTimebase, if_neg (by simp [hnt]), truncQ_eq_ite,
      if_neg (by norm_num)]
    norm_num
  refine ⟨hnt, hpt, by norm_num, by norm_num,
    _, premiereDoc_ok (markerNodes_blue (-1/2)), ?_⟩
  rw [findElems_rate_xmemlTree _ _ _ _ _ _
    (markerNodes_ok_shape (markerNodes_blue (-1/2)))
    (markerNodes_ok_shape (markerNodes_blue (-1/2))), hpt, hnt]

theorem ntscFlag_29_97_metadata : ntscFlag (30000/1001) = false := by
  simp [ntscFlag, NTSC_RATES]
  norm_num

/-- C3 (amended): a metadata record with `fps_num = 30000, fps_den = 1001`
overrides any `--fps` value with the exact ratio 30000/1001; but since that
ratio is not equal to the float literal 29.97 the emitted rate blocks set the
NTSC flag to FALSE with time base `int(30000/1001) = 29`. -/
theorem C3_metadata_fps_override (argsFps : ℚ) (ts : List Marker) (out : String)
    (sn : Option String) (now : String) (w hh : ℤ) (l : List XmlNode)
    (hne : ts ≠ []) (hl : markerNodes (30000/1001) ts = .ok l) :
    mainFps (.jobj [("fps_num", .jnum 30000), ("fps_den", .jnum 1001)]) argsFps =
      some (30000/1001) ∧
    ntscFlag (30000/1001) = false ∧
    pyTimebase (30000/1001) = 29 ∧
    ∃ doc, create_premiere_xml ts out (30000/1001) sn now w hh =
        .ok (true, some doc) ∧
      findElems "rate" doc = List.replicate 4 (rateNode 29 false) := by
  have htb : pyTimebase (30000/1001) = 29 := by
    rw [pyTimebase, if_neg (by simp [ntscFlag_29_97_metadata]), truncQ_eq_ite,
      if_pos (by norm_num)]
    norm_num
  refine ⟨?_, ntscFlag_29_97_metadata, htb,
    _, create_premiere_xml_ok hne hl, ?_⟩
  · simp [mainFps, pyTruthy, jget, List.lookup]
  · rw [findElems_rate_xmemlTree _ _ _ _ _ _
      (markerNodes_ok_shape hl) (markerNodes_ok_shape hl),
      htb, ntscFlag_29_97_metadata]

/-- Witness for C3 at `--fps 60` and a concrete single marker. -/
theorem C3_witness :
    ([(⟨0, .jstr "", .jstr "", .jstr "blue"⟩ : Marker)] ≠ []) ∧
    (mainFps (.jobj [("fps_num", .jnum 30000), ("fps_den", .jnum 1001)]) 60 =
      some (30000/1001) ∧
    ntscFlag (30000/1001) = false ∧
    pyTimebase (30000/1001) = 29 ∧
    ∃ doc, create_premiere_xml [⟨0, .jstr "", .jstr "", .jstr "blue"⟩] "o.xml"
        (30000/1001) none "t" 1920 1080 = .ok (true, some doc) ∧
      findElems "rate" doc = List.replicate 4 (rateNode 29 false)) :=
  ⟨by simp,
    C3_metadata_fps_override 60 [⟨0, .jstr "", .jstr "", .jstr "blue"⟩] "o.xml"
      none "t" 1920 1080 _ (by simp) (markerNodes_blue (30000/1001))⟩

/-- C3 counterexample: with `fps_num = 30000, fps_den = 1001` the effective
rate is 30000/1001, and on that rate the emitted NTSC flag is FALSE — the
claim's "NTSC flag true" is refuted. -/
theorem C3_counterexample :
    mainFps (.jobj [("fps_num", .jnum 30000), ("fps_den", .jnum 1001)]) 60 =
      some (30000/1001) ∧
    ntscFlag (30000/1001) = false := by
  constructor
  · simp [mainFps, pyTruthy, jget, List.lookup]
  · exact ntscFlag_29_97_metadata

theorem find?_pairwise_max {α : Type} (key : α → ℚ) (p : α → Bool) :
    ∀ (l : List α), List.Pairwise (fun a b => key b ≤ key a) l →
      ∀ f, l.find? p = some f → ∀ g ∈ l, p g = true → key g ≤ key f := by
  intro l
  induction l with
  | nil => intro _ f hf; simp at hf
  | cons a tl ih =>
    intro hp f hf g hg hpg
    rcases List.pairwise_cons.mp hp with ⟨ha, htl⟩
    by_cases hpa : p a = true
    · rw [List.find?_cons_of_pos _ hpa] at hf
      cases hf
      rcases List.mem_cons.mp hg with rfl | hgtl
      · exact le_refl _
      · exact ha g hgtl
    · rw [List.find?_cons_of_neg _ hpa] at hf
      rcases List.mem_cons.mp hg with rfl | hgtl
      · exact absurd hpg hpa
      · exact ih htl f hf g hgtl hpg

theorem head_pairwise_max {α : Type} (key : α → ℚ) (x : α) (l : List α)
    (hp : List.Pairwise (fun a b => key b ≤ key a) (x :: l)) :
    ∀ g ∈ x :: l, key g ≤ key x := by
  intro g hg
  rcases List.mem_cons.mp hg with rfl | hgl
  · exact le_refl _
  · exact (List.pairwise_cons.mp hp).1 g hgl

theorem mergeSort_desc (l : List (String × ℚ)) :
    List.Pairwise (fun (a b : String × ℚ) => b.2 ≤ a.2)
      (l.mergeSort fun a b => decide (b.2 ≤ a.2)) := by
  have h := List.sorted_mergeSort
    (fun (a b c : String × ℚ) (hab : decide (b.2 ≤ a.2) = true)
      (hbc : decide (c.2 ≤ b.2) = true) => by
        simp only [decide_eq_true_eq] at hab hbc ⊢
        exact le_trans hbc hab)
    (fun (a b : String × ℚ) => by
      rcases le_total b.2 a.2 with h | h <;> simp [h]) l
  exact h.imp (fun hab => of_decide_eq_true hab)

theorem find_latest_reduce (recording_dir : String)
    (entries : List (String × ℚ)) (t : ℚ)
    (hd : recording_dir.data.isEmpty = false)
    (hvfe : (videoFiles recording_dir entries).isEmpty = false) :
    find_latest_video_file recording_dir (some entries) (some t) =
      match ((videoFiles recording_dir entries).mergeSort
          (fun a b => decide (b.2 ≤ a.2))).find?
            (fun f => decide (|f.2 - t| < 300)) with
      | some f => some f.1
      | none => ((videoFiles recording_dir entries).mergeSort
          (fun a b => decide (b.2 ≤ a.2))).head?.map Prod.fst := by
  simp only [find_latest_video_file, hd, hvfe, Bool.false_eq_true, if_false]

/-- C7: when the recording timestamp parses, `find_latest_video_file` returns
the first file in descending-modification-time order whose modification time
is within 300 seconds of the timestamp (so the selected file is within
tolerance and no within-tolerance file is more recent), and falls back to
the most recently modified file when no file is within tolerance. -/
theorem C7_tolerance_selection (recording_dir : String)
    (entries : List (String × ℚ)) (t : ℚ)
    (hd : recording_dir.data.isEmpty = false)
    (hne : videoFiles recording_dir entries ≠ []) :
    ((∃ f ∈ videoFiles recording_dir entries, |f.2 - t| < 300) →
      ∃ f ∈ videoFiles recording_dir entries,
        find_latest_video_file recording_dir (some entries) (some t) =
          some f.1 ∧ |f.2 - t| < 300 ∧
        ∀ g ∈ videoFiles recording_dir entries, |g.2 - t| < 300 → g.2 ≤ f.2) ∧
    ((∀ f ∈ videoFiles recording_dir entries, ¬(|f.2 - t| < 300)) →
      ∃ f ∈ videoFiles recording_dir entries,
        find_latest_video_file recording_dir (some entries) (some t) =
          some f.1 ∧
        ∀ g ∈ videoFiles recording_dir entries, g.2 ≤ f.2) := by
  have hvfe : (videoFiles recording_dir entries).isEmpty = false :=
    List.isEmpty_eq_false.mpr hne
  have hred := find_latest_reduce recording_dir entries t hd hvfe
  set S := (videoFiles recording_dir entries).mergeSort
    (fun a b => decide (b.2 ≤ a.2)) with hS
  have hperm : S.Perm (videoFiles recording_dir entries) :=
    List.mergeSort_perm (videoFiles recording_dir entries)
      (fun a b => decide (b.2 ≤ a.2))
  have hsort : List.Pairwise (fun (a b : String × ℚ) => b.2 ≤ a.2) S :=
    mergeSort_desc (videoFiles recording_dir entries)
  constructor
  · rintro ⟨f0, hf0, htol⟩
    have hf0s : f0 ∈ S := hperm.mem_iff.mpr hf0
    cases hfind : S.find? (fun f => decide (|f.2 - t| < 300)) with
    | none =>
      have := List.find?_eq_none.mp hfind f0 hf0s
      simp [htol] at this
    | some f =>
      have hfmem : f ∈ videoFiles recording_dir entries :=
        hperm.mem_iff.mp (List.mem_of_find?_eq_some hfind)
      have hftol0 := @List.find?_some (String × ℚ)
        (fun v : String × ℚ => decide (|v.2 - t| < 300)) f S hfind
      have hftol : |f.2 - t| < 300 := of_decide_eq_true hftol0
      refine ⟨f, hfmem, ?_, hftol, ?_⟩
      · rw [hred, hfind]
      · intro g hg hgtol
        exact find?_pairwise_max (fun v => v.2) _ _ hsort f hfind g
          (hperm.mem_iff.mpr hg) (decide_eq_true hgtol)
  · intro hno
    have hfind : S.find? (fun f => decide (|f.2 - t| < 300)) = none := by
      rw [List.find?_eq_none]
      intro x hx
      simp only [decide_eq_true_eq]
      exact hno x (hperm.mem_iff.mp hx)
    cases hs : S with
    | nil =>
      rw [hs] at hperm
      exact absurd (List.Perm.symm hperm |> List.perm_nil.mp) hne
    | cons x xs =>
      rw [hs] at hfind
      refine ⟨x, hperm.mem_iff.mp (by rw [hs]; simp), ?_, ?_⟩
      · rw [hred, hs, hfind]
        rfl
      · intro g hg
        exact head_pairwise_max (fun v => v.2) x xs (hs ▸ hsort) g
          (by rw [← hs]; exact hperm.mem_iff.mpr hg)

/-- Witness for C7: two files, the older one within 5 minutes of the
timestamp, the more recent one an hour away; the within-tolerance file is
selected although it is not the most recent. -/
theorem C7_witness :
    ("d".data.isEmpty = false) ∧
    (videoFiles "d" [("b.mp4", 13600), ("a.mp4", 10100)] ≠ []) ∧
    (∃ f ∈ videoFiles "d" [("b.mp4", 13600), ("a.mp4", 10100)],
      |f.2 - 10000| < 300) ∧
    find_latest_video_file "d" (some [("b.mp4", 13600), ("a.mp4", 10100)])
      (some 10000) = some "d/a.mp4" := by
  have hvf : videoFiles "d" [("b.mp4", (13600 : ℚ)), ("a.mp4", 10100)] =
      [("d/b.mp4", 13600), ("d/a.mp4", 10100)] := by decide
  have hd : "d".data.isEmpty = false := by decide
  have hne : videoFiles "d" [("b.mp4", (13600 : ℚ)), ("a.mp4", 10100)] ≠ [] := by
    rw [hvf]; simp
  have hex : ∃ f ∈ videoFiles "d" [("b.mp4", (13600 : ℚ)), ("a.mp4", 10100)],
      |f.2 - 10000| < 300 := by
    rw [hvf]
    exact ⟨("d/a.mp4", 10100), by simp, by norm_num⟩
  obtain ⟨f, hmem, hres, htol, hmax⟩ :=
    (C7_tolerance_selection "d" [("b.mp4", 13600), ("a.mp4", 10100)] 10000
      hd hne).1 hex
  rw [hvf] at hmem
  have hf : f = ("d/a.mp4", (10100 : ℚ)) := by
    rcases List.mem_cons.mp hmem with h | h
    · exfalso
      rw [h] at htol
      norm_num at htol
    · rcases List.mem_cons.mp h with h2 | h2
      · exact h2
      · simp at h2
  rw [hf] at hres
  exact ⟨hd, hne, hex, hres⟩

/-- C8 (amended): the output path priority is auto-detected name (from a
resolved video file) over explicit output argument over input-stem fallback:
when metadata carries `recording_path` and `timestamp` and a video file is
resolved, the auto-generated name is used even if an explicit output was
given; when no video is resolved, the explicit argument is used if given and
the input-stem fallback only otherwise. -/
theorem C8_output_priority (argsOutput : Option String)
    (fs : List (String × JVal))
    (dirEntries : String → Option (List (String × ℚ)))
    (parseTime : String → Option ℚ) (inputPath dir time : String) :
    (∀ video, fs ≠ [] →
      jget fs "recording_path" = some (.jstr dir) →
      jget fs "timestamp" = some (.jstr time) →
      find_latest_video_file dir (dirEntries dir) (parseTime time) =
        some video →
      determineOutput argsOutput (.jobj fs) dirEntries parseTime inputPath =
        some (dir ++ "/" ++ splitextStem (basename video) ++ "_markers.xml")) ∧
    (fs ≠ [] →
      jget fs "recording_path" = some (.jstr dir) →
      jget fs "timestamp" = some (.jstr time) →
      find_latest_video_file dir (dirEntries dir) (parseTime time) = none →
      determineOutput argsOutput (.jobj fs) dirEntries parseTime inputPath =
        some (argsOutput.getD (splitextStem inputPath ++ "_markers.xml"))) ∧
    (determineOutput argsOutput (.jobj []) dirEntries parseTime inputPath =
      some (argsOutput.getD (splitextStem inputPath ++ "_markers.xml"))) := by
  refine ⟨?_, ?_, rfl⟩
  · intro video hfs h1 h2 hfind
    have hfsE : fs.isEmpty = false := List.isEmpty_eq_false.mpr hfs
    simp [determineOutput, pyTruthy, hfsE, h1, h2, hfind]
  · intro hfs h1 h2 hfind
    have hfsE : fs.isEmpty = false := List.isEmpty_eq_false.mpr hfs
    simp [determineOutput, pyTruthy, hfsE, h1, h2, hfind]

/-- Witness for C8: with an explicit output argument AND a resolvable video
file, the auto-detected name is selected (not the explicit argument). -/
theorem C8_witness :
    determineOutput (some "custom.xml")
      (.jobj [("recording_path", .jstr "d"), ("timestamp", .jstr "ts")])
      (fun _ => some [("a.mp4", 10100)]) (fun _ => none) "input.jsonl" =
      some ("d" ++ "/" ++ splitextStem (basename "d/a.mp4") ++
        "_markers.xml") := by
  have hvf : videoFiles "d" [("a.mp4", (10100 : ℚ))] = [("d/a.mp4", 10100)] := by
    decide
  have hfind : find_latest_video_file "d" (some [("a.mp4", (10100 : ℚ))]) none =
      some "d/a.mp4" := by
    simp [find_latest_video_file, hvf, List.mergeSort]
  exact (C8_output_priority (some "custom.xml")
      [("recording_path", .jstr "d"), ("timestamp", .jstr "ts")]
      (fun _ => some [("a.mp4", 10100)]) (fun _ => none) "input.jsonl" "d"
      "ts").1 "d/a.mp4" (by simp) (by rfl) (by rfl) hfind

/-- C8 counterexample: with an explicit output argument and no metadata, the
explicit argument is used — the input-stem fallback does not take priority
over it, refuting the claimed ordering in which the fallback is highest. -/
theorem C8_counterexample :
    determineOutput (some "custom.xml") (.jobj []) (fun _ => none)
      (fun _ => none) "input.jsonl" = some "custom.xml" ∧
    "custom.xml" ≠ splitextStem "input.jsonl" ++ "_markers.xml" := by
  constructor
  · rfl
  · decide
